import Mathlib

/-!
# Verification of ribozap's candidate-matching and ingestion subsystem

A shallow embedding, in Lean 4, of the matching engine, recompute
scheduler, catalog ingestion pipeline and progress channel bridge of the
`ribozap` crate, together with theorems settling the specified properties.

Modelling conventions:
* Rust `String`/`&str` values are modelled as `List Char` (`Str`); all the
  strings the program manipulates are ASCII, where Rust's byte length and
  char-wise iteration coincide with list length and list iteration.
* Rust `f64` arithmetic on similarity scores is modelled exactly over `ℚ`;
  every score produced by the program is of the form `m / n * 100` with
  small `m ≤ n`, where `f64` arithmetic is exact for the comparisons and
  small averages involved.  Parsed `f64` values (`phylo_csf_mean`) use an
  explicit `F64` type with non-finite values, since Rust float parsing can
  produce `NaN`/`inf`.
* `usize` is modelled as `Nat`; overflow checking of `usize::from_str`
  keeps the 64-bit bound explicit.
* Stateful methods on `App` (from `src/app.rs`) become functions
  `App → App`; fields that no claim mentions (amino-acid colouring, the
  search/filter UI state) are omitted from the state record.
* The ingestion pipeline's I/O is modelled by explicit state passing over
  an `IngestWorld` (cache files, network response); the progress callback
  becomes the list of events emitted, in order.
-/

/-- Rust strings modelled as lists of characters. -/
abbrev Str := List Char

/-- A Rust `f64` as produced by `str::parse::<f64>`: a finite value
(modelled exactly as a rational), `NaN`, or a signed infinity. -/
inductive F64 where
  | finite (q : ℚ)
  | nan
  | inf (neg : Bool)
deriving DecidableEq, Repr

/-- The `min_len` intermediate of `calculate_dna_similarity`
(`src/protein/matching.rs`): minimum of the two uppercased lengths. -/
def dna_min_len (seq1 seq2 : Str) : Nat :=
  min (seq1.map Char.toUpper).length (seq2.map Char.toUpper).length

/-- The `matches` intermediate of `calculate_dna_similarity`
(`src/protein/matching.rs`): the count of positionally equal characters of
the two uppercased sequences, zipped and truncated to `min_len`. -/
def dna_matches (seq1 seq2 : Str) : Nat :=
  let s1 := seq1.map Char.toUpper
  let s2 := seq2.map Char.toUpper
  (((s1.zip s2).take (dna_min_len seq1 seq2)).filter (fun p => p.1 == p.2)).length

/-- `calculate_dna_similarity` from `src/protein/matching.rs`: the
percentage of matching positions over the shorter length, `0.0` when a
sequence is empty. -/
def calculate_dna_similarity (seq1 seq2 : Str) : ℚ :=
  let min_len := dna_min_len seq1 seq2
  if min_len = 0 then 0
  else ((dna_matches seq1 seq2 : ℚ) / (min_len : ℚ)) * 100

/-- `identify_matching_positions` from `src/protein/matching.rs`: the
per-position equality mask of the two uppercased sequences (length is the
minimum of the two lengths, from `zip`). -/
def identify_matching_positions (seq1 seq2 : Str) : List Bool :=
  let s1 := seq1.map Char.toUpper
  let s2 := seq2.map Char.toUpper
  (s1.zip s2).map (fun p => p.1 == p.2)

/-- `SmallProtein` from `src/protein/dataset.rs`: one catalog record. -/
structure SmallProtein where
  species : Str
  id : Str
  rna_seq : Str
  aa_seq : Str
  length : Nat
  chromosome : Str
  start : Nat
  stop : Nat
  strand : Str
  blocks : Str
  start_codon : Str
  phylo_csf_mean : F64
deriving DecidableEq, Repr

/-- `DatasetProgress` from `src/protein/dataset.rs`. -/
inductive DatasetProgress where
  | checkingCache
  | downloading (bytes_downloaded : Nat) (total_bytes : Option Nat)
  | extracting
  | parsing (lines_parsed : Nat)
  | complete
  | error (msg : Str)
deriving DecidableEq, Repr

/-- Descending stable sort, modelling
`sort_by(|a, b| b.partial_cmp(a).unwrap_or(Equal))` on lists of finite
`f64` values (where `partial_cmp` never returns `None`). -/
def sortDesc (l : List ℚ) : List ℚ :=
  l.insertionSort (fun a b => a ≥ b)

/-- `App::calculate_strand_confidence` from `src/app.rs`: `0.0` on an
empty distribution, otherwise the mean of the top `min(5, len)` values of
the descending-sorted distribution. -/
def calculate_strand_confidence (similarities : List ℚ) : ℚ :=
  if similarities.isEmpty then 0
  else
    let sorted_similarities := sortDesc similarities
    let top_n := min similarities.length 5
    if top_n = 0 then 0
    else (sorted_similarities.take top_n).sum / (top_n : ℚ)

/-- The relevant part of the `App` state from `src/app.rs` (fields that no
claim mentions, such as the amino-acid colouring and the search UI state,
are omitted). -/
structure App where
  input : Str
  complementary : Str
  mrna : Str
  current_codon_position : Nat
  small_proteins : List SmallProtein
  closest_protein : Option SmallProtein
  is_loading_proteins : Bool
  loading_error : Option Str
  loaded_proteins_count : Nat
  dataset_progress : Option DatasetProgress
  is_positive_strand : Bool
  matching_positions : List Bool
  current_strand_confidence : ℚ
  opposite_strand_confidence : ℚ
  last_input_length : Nat
  protein_match_needed : Bool
  progress_receiver : Option (List DatasetProgress)
  protein_receiver : Option (Option (Except Str (List SmallProtein)))
deriving Repr

/-- `App::new` from `src/app.rs` (restricted to the modelled fields). -/
def App.new : App where
  input := []
  complementary := []
  mrna := []
  current_codon_position := 0
  small_proteins := []
  closest_protein := none
  is_loading_proteins := true
  loading_error := none
  loaded_proteins_count := 0
  dataset_progress := some DatasetProgress.checkingCache
  is_positive_strand := true
  matching_positions := []
  current_strand_confidence := 0
  opposite_strand_confidence := 0
  last_input_length := 0
  protein_match_needed := false
  progress_receiver := none
  protein_receiver := none

/-- The loop accumulator of `App::find_closest_protein`: the four mutable
locals (`best_similarity`, `best_match`, `best_matching_positions`) and
the two similarity distributions being pushed to. -/
structure MatchAcc where
  best_similarity : ℚ
  best_match : Option SmallProtein
  best_matching_positions : List Bool
  positive_strand_similarities : List ℚ
  negative_strand_similarities : List ℚ

/-- The `for protein in &self.small_proteins` loop of
`App::find_closest_protein` (`src/app.rs`): pushes both strands'
similarities, picks the strand-relevant comparison from the record's own
`strand` field, and replaces the running best on strict `>`. -/
def matchLoop (input complementary : Str) (acc : MatchAcc) :
    List SmallProtein → MatchAcc
  | [] => acc
  | protein :: rest =>
    let positive_similarity := calculate_dna_similarity input protein.rna_seq
    let negative_similarity := calculate_dna_similarity complementary protein.rna_seq
    let acc :=
      { acc with
        positive_strand_similarities :=
          acc.positive_strand_similarities ++ [positive_similarity]
        negative_strand_similarities :=
          acc.negative_strand_similarities ++ [negative_similarity] }
    let cps : Str × Str × ℚ :=
      if protein.strand = ['-'] then
        (complementary, protein.rna_seq, negative_similarity)
      else
        (input, protein.rna_seq, positive_similarity)
    let acc :=
      if cps.2.2 > acc.best_similarity then
        { acc with
          best_similarity := cps.2.2
          best_match := some protein
          best_matching_positions := identify_matching_positions cps.1 cps.2.1 }
      else acc
    matchLoop input complementary acc rest

/-- `App::find_closest_protein` from `src/app.rs`. -/
def App.find_closest_protein (app : App) : App :=
  if app.input.isEmpty || app.small_proteins.isEmpty then
    { app with
      closest_protein := none
      matching_positions := []
      current_strand_confidence := 0
      opposite_strand_confidence := 0 }
  else
    let r := matchLoop app.input app.complementary
      ⟨0, none, [], [], []⟩ app.small_proteins
    { app with
      current_strand_confidence :=
        calculate_strand_confidence r.positive_strand_similarities
      opposite_strand_confidence :=
        calculate_strand_confidence r.negative_strand_similarities
      closest_protein := r.best_match
      matching_positions := r.best_matching_positions }

/-- `get_complementary_base` from `src/sequence/conversion.rs`. -/
def get_complementary_base (base : Char) : Char :=
  let u := base.toUpper
  if u = 'A' then 'T'
  else if u = 'T' then 'A'
  else if u = 'G' then 'C'
  else if u = 'C' then 'G'
  else '?'

/-- `dna_to_mrna` from `src/sequence/conversion.rs`. -/
def dna_to_mrna (base : Char) : Char :=
  let u := base.toUpper
  if u = 'A' then 'U'
  else if u = 'T' then 'A'
  else if u = 'G' then 'C'
  else if u = 'C' then 'G'
  else '?'

/-- The recompute-trigger condition of `App::update_sequences`
(`src/app.rs`): `current_length < 10 || last_input_length == 0 ||
current_length.abs_diff(last_input_length) >= 3`. -/
def needsRecompute (previous_length current_length : Nat) : Bool :=
  decide (current_length < 10) || decide (previous_length = 0) ||
    decide (3 ≤ Nat.dist current_length previous_length)

/-- `App::update_sequences` from `src/app.rs` (the amino-acid rendering
update, which touches only fields outside the modelled state, is the one
omitted step). -/
def App.update_sequences (app : App) : App :=
  let app :=
    if app.is_positive_strand then
      { app with
        complementary := app.input.map get_complementary_base
        mrna := app.input.map dna_to_mrna }
    else
      let positive_strand := app.complementary.map get_complementary_base
      { app with
        input := positive_strand
        mrna := positive_strand.map dna_to_mrna }
  let app := { app with current_codon_position := app.mrna.length % 3 }
  let current_length := app.input.length
  let app :=
    if needsRecompute app.last_input_length current_length then
      { app with protein_match_needed := true }
    else app
  { app with last_input_length := current_length }

/-- Helper for `Rust str::split('\t')`: accumulate the current field
(reversed) while walking the line. -/
def splitTabAux : Str → Str → List Str
  | [], acc => [acc.reverse]
  | c :: rest, acc =>
    if c = '\t' then acc.reverse :: splitTabAux rest []
    else splitTabAux rest (c :: acc)

/-- `line.split('\t').collect::<Vec<_>>()`: tab-separated fields, empty
fields kept, one more field than tabs. -/
def splitTab (line : Str) : List Str :=
  splitTabAux line []

/-- Rust `str::trim`: drop whitespace from both ends. -/
def trimStr (s : Str) : Str :=
  ((s.dropWhile Char.isWhitespace).reverse.dropWhile Char.isWhitespace).reverse

/-- Digit-list value in base 10. -/
def digitsVal (cs : Str) : Nat :=
  cs.foldl (fun acc c => acc * 10 + (c.toNat - '0'.toNat)) 0

/-- Rust `str::parse::<usize>()`: an optional leading `+`, then one or
more ASCII digits, rejecting values that overflow 64-bit `usize`. -/
def rustParseUsize (s : Str) : Option Nat :=
  let cs := match s with
    | '+' :: rest => rest
    | _ => s
  if cs.isEmpty then none
  else if cs.all Char.isDigit then
    let v := digitsVal cs
    if v < 2 ^ 64 then some v else none
  else none

/-- The exponent suffix of a Rust float literal: optional sign then one or
more digits; returns the signed exponent. -/
def parseExponent (cs : Str) : Option Int :=
  let (eneg, ds) : Bool × Str := match cs with
    | '-' :: rest => (true, rest)
    | '+' :: rest => (false, rest)
    | _ => (false, cs)
  if ds.isEmpty then none
  else if ds.all Char.isDigit then
    some (if eneg then -(digitsVal ds : Int) else (digitsVal ds : Int))
  else none

/-- Value of a finite decimal `int`, `int.frac`, `.frac` part with a
signed power-of-ten exponent, as an exact rational. -/
def decimalValue (neg : Bool) (intPart fracPart : Str) (exp : Int) : ℚ :=
  let base : ℚ := (digitsVal intPart : ℚ) +
    (digitsVal fracPart : ℚ) / ((10 : ℚ) ^ fracPart.length)
  let scaled := base * (10 : ℚ) ^ exp
  if neg then -scaled else scaled

/-- Rust `str::parse::<f64>()`: optional sign; `inf`/`infinity`/`nan`
case-insensitively; or a decimal mantissa (digits, digits-point-digits,
digits-point, or point-digits) with an optional `e`/`E` exponent.  Finite
values are modelled as exact rationals (the rounding of an exact decimal
to the nearest `f64`, and the overflow of huge exponents to infinity, are
not modelled; no claim depends on them). -/
def rustParseF64 (s : Str) : Option F64 :=
  let (neg, cs) : Bool × Str := match s with
    | '-' :: rest => (true, rest)
    | '+' :: rest => (false, rest)
    | _ => (false, s)
  let lower := cs.map Char.toLower
  if lower = ('i' :: 'n' :: 'f' :: []) ∨
      lower = ('i' :: 'n' :: 'f' :: 'i' :: 'n' :: 'i' :: 't' :: 'y' :: []) then
    some (F64.inf neg)
  else if lower = ('n' :: 'a' :: 'n' :: []) then
    some F64.nan
  else
    let intPart := cs.takeWhile Char.isDigit
    let rest := cs.dropWhile Char.isDigit
    match rest with
    | [] => if intPart.isEmpty then none else some (F64.finite (decimalValue neg intPart [] 0))
    | '.' :: rest2 =>
      let fracPart := rest2.takeWhile Char.isDigit
      let rest3 := rest2.dropWhile Char.isDigit
      if intPart.isEmpty ∧ fracPart.isEmpty then none
      else
        match rest3 with
        | [] => some (F64.finite (decimalValue neg intPart fracPart 0))
        | 'e' :: rest4 =>
          (parseExponent rest4).map (fun e => F64.finite (decimalValue neg intPart fracPart e))
        | 'E' :: rest4 =>
          (parseExponent rest4).map (fun e => F64.finite (decimalValue neg intPart fracPart e))
        | _ => none
    | 'e' :: rest2 =>
      if intPart.isEmpty then none
      else (parseExponent rest2).map (fun e => F64.finite (decimalValue neg intPart [] e))
    | 'E' :: rest2 =>
      if intPart.isEmpty then none
      else (parseExponent rest2).map (fun e => F64.finite (decimalValue neg intPart [] e))
    | _ => none

/-- `parse_float_field` from `src/protein/dataset.rs`: placeholder tokens
map to `0.0`, anything else is parsed with `0.0` as the fallback (the
`errors_encountered` counter only feeds logging and is not modelled). -/
def parse_float_field (field : Str) : F64 :=
  let trimmed := trimStr field
  if trimmed = [] ∨ trimmed = ('N' :: 'A' :: []) ∨
      trimmed = ('N' :: 'U' :: 'L' :: 'L' :: []) ∨
      trimmed = ('n' :: 'u' :: 'l' :: 'l' :: []) ∨
      trimmed = ('N' :: '/' :: 'A' :: []) ∨
      trimmed = ('n' :: '/' :: 'a' :: []) ∨
      trimmed = ('-' :: []) ∨ trimmed = ('.' :: []) ∨
      trimmed = ('N' :: 'a' :: 'N' :: []) ∨
      trimmed = ('n' :: 'a' :: 'n' :: []) then
    F64.finite 0
  else
    (rustParseF64 trimmed).getD (F64.finite 0)

/-- `parse_usize_field` from `src/protein/dataset.rs`: placeholder tokens
map to `0`, anything else is parsed with `0` as the fallback. -/
def parse_usize_field (field : Str) : Nat :=
  let trimmed := trimStr field
  if trimmed = [] ∨ trimmed = ('N' :: 'A' :: []) ∨
      trimmed = ('N' :: 'U' :: 'L' :: 'L' :: []) ∨
      trimmed = ('n' :: 'u' :: 'l' :: 'l' :: []) ∨
      trimmed = ('N' :: '/' :: 'A' :: []) ∨
      trimmed = ('n' :: '/' :: 'a' :: []) ∨
      trimmed = ('-' :: []) ∨ trimmed = ('.' :: []) then
    0
  else
    (rustParseUsize trimmed).getD 0

/-- One iteration of the parsing loop of
`download_and_parse_small_protein_dataset_with_progress`
(`src/protein/dataset.rs`): split on tabs, skip the line when fewer than
12 fields, otherwise build the `SmallProtein` in the fixed column order. -/
def parseLine (line : Str) : Option SmallProtein :=
  let fields := splitTab line
  if fields.length < 12 then none
  else some
    { species := fields.getD 0 []
      id := fields.getD 1 []
      rna_seq := fields.getD 2 []
      aa_seq := fields.getD 3 []
      length := parse_usize_field (fields.getD 4 [])
      chromosome := fields.getD 5 []
      start := parse_usize_field (fields.getD 6 [])
      stop := parse_usize_field (fields.getD 7 [])
      strand := fields.getD 8 []
      blocks := fields.getD 9 []
      start_codon := fields.getD 10 []
      phylo_csf_mean := parse_float_field (fields.getD 11 []) }

/-- The parsing phase of the pipeline: skip the header line, keep every
line that `parseLine` accepts, and emit a `Parsing` progress event every
1000 kept records (as `lines_parsed % 1000 == 0` after each push). -/
def parsePhase (content : List Str) : List DatasetProgress × List SmallProtein :=
  (content.drop 1).foldl
    (fun acc line =>
      match parseLine line with
      | none => acc
      | some p =>
        let proteins := acc.2 ++ [p]
        let events :=
          if proteins.length % 1000 = 0 then
            acc.1 ++ [DatasetProgress.parsing proteins.length]
          else acc.1
        (events, proteins))
    ([], [])

/-- The record list produced by the parsing phase, as a function of the
file's lines. -/
def parseDataset (lines : List Str) : List SmallProtein :=
  (parsePhase lines).2

/-- One line as the `BufReader::lines()` iterator yields it
(`src/protein/dataset.rs:186-191`): the read of each line is itself
fallible, and the parsing loop applies `?` to it. -/
abbrev LineRead := Except Str Str

/-- The gzip archive cached (or downloaded) by the pipeline: either a
well-formed archive carrying the plaintext lines the extracted cache file
will later yield to the parser (each subsequent line read can still fail
on its own), or a corrupt one whose decompression
(`read_to_string` through `GzDecoder`) fails with a message. -/
inductive GzData where
  | valid (content : List LineRead)
  | corrupt (msg : Str)
deriving Repr

/-- An HTTP response for the dataset archive: the optional
`Content-Length`, the sizes of the 8 KiB read chunks, and the archive
bytes received. -/
structure NetResponse where
  total : Option Nat
  chunks : List Nat
  data : GzData
deriving Repr

/-- The filesystem's disposition towards each fallible file operation of
`download_and_parse_small_protein_dataset_with_progress`
(`src/protein/dataset.rs`): each field is `some message` when the
corresponding operation fails with that error, `none` when it succeeds.
`write_temp_error` stands for the first `write_all` of the download loop
failing (a failing write aborts the loop before its chunk's progress
event). -/
structure FsState where
  data_dir_error : Option Str
  create_temp_error : Option Str
  write_temp_error : Option Str
  open_temp_error : Option Str
  write_extracted_error : Option Str
  open_extracted_error : Option Str
deriving DecidableEq, Repr

/-- A filesystem on which every operation succeeds. -/
def fsOk : FsState where
  data_dir_error := none
  create_temp_error := none
  write_temp_error := none
  open_temp_error := none
  write_extracted_error := none
  open_extracted_error := none

/-- The world the ingestion pipeline interacts with: the two cache files
under the data directory, the network, and the filesystem's disposition.
`network` is the outcome of `Client::get(url).send()` plus the body
reads. -/
structure IngestWorld where
  txtFile : Option (List LineRead)
  gzFile : Option GzData
  network : Except Str NetResponse
  fs : FsState

/-- Running byte totals after each chunk. -/
def cumulativeSums (start : Nat) : List Nat → List Nat
  | [] => []
  | c :: cs => (start + c) :: cumulativeSums (start + c) cs

/-- The `Downloading` events emitted inside the chunk loop, one per chunk
with the cumulative byte count and the response's `Content-Length`. -/
def downloadEvents (resp : NetResponse) : List DatasetProgress :=
  (cumulativeSums 0 resp.chunks).map
    (fun n => DatasetProgress.downloading n resp.total)

/-- The parsing loop of `src/protein/dataset.rs:186-225` over fallible
line reads: a failing line read propagates `Err` out of the whole
function via `?`, discarding every record parsed before it; a readable
line is split on tabs, dropped when it has fewer than 12 fields, and
otherwise pushed, with a `Parsing` event every 1000 kept records. -/
def parseFileLoop : List LineRead → List DatasetProgress → List SmallProtein →
    List DatasetProgress × Except Str (List SmallProtein)
  | [], events, proteins => (events, Except.ok proteins)
  | lineRead :: rest, events, proteins =>
    match lineRead with
    | Except.error e => (events, Except.error e)
    | Except.ok line =>
      match parseLine line with
      | none => parseFileLoop rest events proteins
      | some p =>
        let proteins := proteins ++ [p]
        let events :=
          if proteins.length % 1000 = 0 then
            events ++ [DatasetProgress.parsing proteins.length]
          else events
        parseFileLoop rest events proteins

/-- The parsing loop applied to a file's lines, skipping the header. -/
def parseFilePhase (content : List LineRead) :
    List DatasetProgress × Except Str (List SmallProtein) :=
  parseFileLoop (content.drop 1) [] []

/-- The parse step of the pipeline: `File::open(extracted_file)` (which
can fail), then the parsing loop; `Complete` is emitted only when the
loop returns `Ok`. -/
def parseFromFile (ev : List DatasetProgress) (content : List LineRead)
    (w : IngestWorld) :
    List DatasetProgress × Except Str (List SmallProtein) × IngestWorld :=
  match w.fs.open_extracted_error with
  | some e => (ev, Except.error e, w)
  | none =>
    let r := parseFilePhase content
    match r.2 with
    | Except.ok ps => (ev ++ r.1 ++ [DatasetProgress.complete], Except.ok ps, w)
    | Except.error e => (ev ++ r.1, Except.error e, w)

/-- The extraction-then-parsing tail of
`download_and_parse_small_protein_dataset_with_progress`: emit
`Extracting`, open the archive (`File::open(temp_file)`, fallible),
decompress it (failing on a corrupt one), write the plaintext cache file
(`fs::write`, fallible), then parse it. -/
def extractAndParse (ev : List DatasetProgress) (gz : GzData) (w : IngestWorld) :
    List DatasetProgress × Except Str (List SmallProtein) × IngestWorld :=
  let ev := ev ++ [DatasetProgress.extracting]
  match w.fs.open_temp_error with
  | some e => (ev, Except.error e, w)
  | none =>
    match gz with
    | GzData.corrupt msg => (ev, Except.error msg, w)
    | GzData.valid content =>
      match w.fs.write_extracted_error with
      | some e => (ev, Except.error e, w)
      | none =>
        let w2 := { w with txtFile := some content }
        parseFromFile ev content w2

/-- `download_and_parse_small_protein_dataset_with_progress` from
`src/protein/dataset.rs`, as a function of the `IngestWorld`: the emitted
progress events in order, the returned result, and the final world.
`get_data_dir` runs (and can fail) before any event; `CheckingCache` is
emitted next; when the plaintext cache exists the pipeline goes straight
to parsing; otherwise the archive is downloaded if absent — emitting
`Downloading {0, None}` before the request, then `File::create` and the
, chunk loop (fallible writes), one `Downloading` event per chunk — and
then extracted. -/
def ingest (w : IngestWorld) :
    List DatasetProgress × Except Str (List SmallProtein) × IngestWorld :=
  match w.fs.data_dir_error with
  | some e => ([], Except.error e, w)
  | none =>
    match w.txtFile with
    | some content =>
      parseFromFile [DatasetProgress.checkingCache] content w
    | none =>
      match w.gzFile with
      | some gz => extractAndParse [DatasetProgress.checkingCache] gz w
      | none =>
        match w.network with
        | Except.error e =>
          ([DatasetProgress.checkingCache, DatasetProgress.downloading 0 none],
            Except.error e, w)
        | Except.ok resp =>
          match w.fs.create_temp_error with
          | some e =>
            ([DatasetProgress.checkingCache, DatasetProgress.downloading 0 none],
              Except.error e, w)
          | none =>
            match w.fs.write_temp_error with
            | some e =>
              ([DatasetProgress.checkingCache, DatasetProgress.downloading 0 none],
                Except.error e, w)
            | none =>
              let w2 := { w with gzFile := some resp.data }
              extractAndParse
                (DatasetProgress.checkingCache ::
                  DatasetProgress.downloading 0 none :: downloadEvents resp)
                resp.data w2

/-- `App::start_threaded_loading` from `src/app.rs`: a no-op when either
receiver from a previous ingestion is still held; otherwise both channels
are created and the worker is spawned.  The worker's whole lifetime is
summarised by the messages it will deliver: every progress event it sends
through the progress channel and the single terminal result it sends
through the result channel, both taken from `ingest` run on `w`. -/
def App.start_threaded_loading (app : App) (w : IngestWorld) : App :=
  if app.progress_receiver.isSome || app.protein_receiver.isSome then app
  else
    let r := ingest w
    { app with
      progress_receiver := some r.1
      protein_receiver := some (some r.2.1) }

/-- `App::check_loading_progress` from `src/app.rs`: drain every buffered
progress event (each one overwriting `dataset_progress`), then consume the
terminal result if present — on `Ok` storing the records, on `Err`
recording the error, and in both cases dropping both receivers. -/
def App.check_loading_progress (app : App) : App :=
  let app :=
    match app.progress_receiver with
    | none => app
    | some events =>
      let drained : App := events.foldl
        (fun (a : App) p => { a with dataset_progress := some p }) app
      { drained with progress_receiver := some [] }
  match app.protein_receiver with
  | none => app
  | some none => app
  | some (some result) =>
    let app :=
      match result with
      | Except.ok proteins =>
        { app with
          loaded_proteins_count := proteins.length
          small_proteins := proteins
          is_loading_proteins := false
          dataset_progress := some DatasetProgress.complete }
      | Except.error e =>
        { app with
          loading_error :=
            some (('E' :: 'r' :: 'r' :: 'o' :: 'r' :: ' ' :: 'l' :: 'o' ::
              'a' :: 'd' :: 'i' :: 'n' :: 'g' :: ' ' :: 'p' :: 'r' :: 'o' ::
              't' :: 'e' :: 'i' :: 'n' :: 's' :: ':' :: ' ' :: []) ++ e)
          is_loading_proteins := false
          dataset_progress := some (DatasetProgress.error e) }
    { app with
      progress_receiver := none
      protein_receiver := none }

/-- The loop accumulator of the `find_closest_protein` copy in
`src/main.rs`, which additionally collects `(record, relevant similarity)`
pairs into `all_similarities` and filters the per-strand distributions by
each record's own strand annotation. -/
structure MainMatchAcc where
  best_similarity : ℚ
  best_match : Option SmallProtein
  best_matching_positions : List Bool
  positive_strand_similarities : List ℚ
  negative_strand_similarities : List ℚ
  all_similarities : List (SmallProtein × ℚ)

/-- The record loop of `find_closest_protein` in `src/main.rs`. -/
def mainMatchLoop (input complementary : Str) (acc : MainMatchAcc) :
    List SmallProtein → MainMatchAcc
  | [] => acc
  | protein :: rest =>
    let positive_similarity := calculate_dna_similarity input protein.rna_seq
    let negative_similarity := calculate_dna_similarity complementary protein.rna_seq
    let acc :=
      if protein.strand = ['+'] then
        { acc with positive_strand_similarities :=
            acc.positive_strand_similarities ++ [positive_similarity] }
      else if protein.strand = ['-'] then
        { acc with negative_strand_similarities :=
            acc.negative_strand_similarities ++ [negative_similarity] }
      else acc
    let cps : Str × Str × ℚ :=
      if protein.strand = ['-'] then
        (complementary, protein.rna_seq, negative_similarity)
      else
        (input, protein.rna_seq, positive_similarity)
    let acc := { acc with all_similarities := acc.all_similarities ++ [(protein, cps.2.2)] }
    let acc :=
      if cps.2.2 > acc.best_similarity then
        { acc with
          best_similarity := cps.2.2
          best_match := some protein
          best_matching_positions := identify_matching_positions cps.1 cps.2.1 }
      else acc
    mainMatchLoop input complementary acc rest

/-- The relevant part of the `App` state defined locally in `src/main.rs`
(it carries a ranked `histogram_data` list that the `src/app.rs` state
does not have). -/
structure MainApp where
  input : Str
  complementary : Str
  small_proteins : List SmallProtein
  closest_protein : Option SmallProtein
  is_positive_strand : Bool
  matching_positions : List Bool
  current_strand_confidence : ℚ
  opposite_strand_confidence : ℚ
  histogram_data : List (SmallProtein × ℚ)
  max_histogram_entries : Nat
  last_input_length : Nat
  protein_match_needed : Bool

/-- Descending stable sort of `(record, similarity)` pairs by similarity,
modelling `all_similarities.sort_by(|a, b| b.1.partial_cmp(&a.1)...)`. -/
def sortPairsDesc (l : List (SmallProtein × ℚ)) : List (SmallProtein × ℚ) :=
  l.insertionSort (fun a b => a.2 ≥ b.2)

/-- `find_closest_protein` from `src/main.rs`: like the `src/app.rs`
version, but also ranks all records by relevant similarity into
`histogram_data` (top `max_histogram_entries`) and assigns the two
confidences according to `is_positive_strand`. -/
def MainApp.find_closest_protein (app : MainApp) : MainApp :=
  if app.input.isEmpty || app.small_proteins.isEmpty then
    { app with
      closest_protein := none
      matching_positions := []
      current_strand_confidence := 0
      opposite_strand_confidence := 0
      histogram_data := [] }
  else
    let app := { app with histogram_data := [] }
    let r := mainMatchLoop app.input app.complementary
      ⟨0, none, [], [], [], []⟩ app.small_proteins
    let app := { app with
      histogram_data := (sortPairsDesc r.all_similarities).take app.max_histogram_entries }
    let app :=
      if app.is_positive_strand then
        { app with
          current_strand_confidence :=
            calculate_strand_confidence r.positive_strand_similarities
          opposite_strand_confidence :=
            calculate_strand_confidence r.negative_strand_similarities }
      else
        { app with
          current_strand_confidence :=
            calculate_strand_confidence r.negative_strand_similarities
          opposite_strand_confidence :=
            calculate_strand_confidence r.positive_strand_similarities }
    { app with
      closest_protein := r.best_match
      matching_positions := r.best_matching_positions }

/-- The similarity the record's own strand annotation makes relevant for
best-match purposes: `Minus`-strand records use the reverse similarity
against `complementary`, every other record the forward similarity against
`input`. -/
def relevant_similarity (input complementary : Str) (p : SmallProtein) : ℚ :=
  if p.strand = ['-'] then calculate_dna_similarity complementary p.rna_seq
  else calculate_dna_similarity input p.rna_seq

/-- The query string the record's strand annotation selects for the
comparison. -/
def compare_string (input complementary : Str) (p : SmallProtein) : Str :=
  if p.strand = ['-'] then complementary else input

/-- The highest relevant similarity over the record list, folded over the
loop's initial `best_similarity = 0.0`. -/
def maxRelevant (input complementary : Str) (ps : List SmallProtein) : ℚ :=
  (ps.map (relevant_similarity input complementary)).foldr max 0

/-- The record the specification's best-match rule selects: the earliest
record attaining the highest relevant similarity — provided that maximum
beats the loop's initial threshold `0.0`. -/
def specBest (input complementary : Str) (ps : List SmallProtein) :
    Option SmallProtein :=
  if 0 < maxRelevant input complementary ps then
    ps.find? (fun p =>
      relevant_similarity input complementary p = maxRelevant input complementary ps)
  else none

/-- The `positional_similarity` of the specification, written from the
spec's own words: the count of positions `i < min (len a) (len b)` where
the uppercased characters agree, over that minimum, times 100; `0` for
empty inputs. -/
def spec_positional_similarity (a b : Str) : ℚ :=
  let m := min a.length b.length
  if m = 0 then 0
  else
    (((List.range m).filter
      (fun i => (a.getD i ' ').toUpper = (b.getD i ' ').toUpper)).length : ℚ)
      / (m : ℚ) * 100

/-- A protein record with every field blank (forward strand). -/
def blankProtein : SmallProtein where
  species := []
  id := []
  rna_seq := []
  aa_seq := []
  length := 0
  chromosome := []
  start := 0
  stop := 0
  strand := ['+']
  blocks := []
  start_codon := []
  phylo_csf_mean := F64.finite 0

/-- C1 counterexample state: one forward-strand record `"G"` against the
query `"A"` (relevant similarity `0`). -/
def c1Rec : SmallProtein := { blankProtein with rna_seq := ['G'] }

/-- The app state of the C1 counterexample. -/
def c1App : App :=
  { App.new with
    input := ['A']
    complementary := ['T']
    small_proteins := [c1Rec] }

/-- Witness record for C1: a forward-strand record identical to the
query. -/
def c1WitRec : SmallProtein := { blankProtein with rna_seq := ['A'] }

/-- Witness state for C1: query `"A"`, catalog `["A"]`. -/
def c1WitApp : App :=
  { App.new with
    input := ['A']
    complementary := ['T']
    small_proteins := [c1WitRec] }

/-- Counterexample state for C2: the negative strand is active
(`is_positive_strand = false`), with one forward-strand record equal to
the forward query, so the forward and reverse distributions differ. -/
def c2App : App :=
  { App.new with
    input := ['A']
    complementary := ['T']
    is_positive_strand := false
    small_proteins := [c1WitRec] }

/-- The C3 scenario's record: `Minus` strand, `rna_seq = "AUGC"`. -/
def c3Rec : SmallProtein :=
  { blankProtein with strand := ['-'], rna_seq := ['A', 'U', 'G', 'C'] }

/-- The C3 scenario's state: forward query `"AUGC"`, companion complement
string `"UACG"`, catalog containing exactly the `Minus` record. -/
def c3App : App :=
  { App.new with
    input := ['A', 'U', 'G', 'C']
    complementary := ['U', 'A', 'C', 'G']
    small_proteins := [c3Rec] }

/-- Witness state for C5 on the `src/app.rs` state: empty query but
non-empty catalog and stale non-empty outputs. -/
def c5WitApp : App :=
  { App.new with
    small_proteins := [c1WitRec]
    closest_protein := some c1WitRec
    matching_positions := [true]
    current_strand_confidence := 7
    opposite_strand_confidence := 9 }

/-- Witness state for C5 on the `src/main.rs` state. -/
def c5WitMainApp : MainApp where
  input := []
  complementary := []
  small_proteins := [blankProtein]
  closest_protein := some blankProtein
  is_positive_strand := true
  matching_positions := [true]
  current_strand_confidence := 7
  opposite_strand_confidence := 9
  histogram_data := [(blankProtein, 5)]
  max_histogram_entries := 10
  last_input_length := 0
  protein_match_needed := false

/-- A well-formed 12-field data line whose numeric fields hold the
placeholder `"NA"`. -/
def c7GoodLine : Str :=
  ("sp\tid1\tAUG\tM\tNA\tchr1\t10\t20\t+\tb\tAUG\tNA").data

/-- An 11-field data line (one field short). -/
def c7BadLine : Str :=
  ("sp\tid1\tAUG\tM\t5\tchr1\t10\t20\t+\tb\tAUG").data

/-- A header line. -/
def c7Header : Str := ("species\tid\trest").data

/-- Witness world for C8: the plaintext cache already holds a parsed
dataset, the archive is absent and the network would fail if touched. -/
def c8World : IngestWorld where
  txtFile := some [Except.ok c7Header, Except.ok c7GoodLine, Except.ok c7BadLine]
  gzFile := none
  network := Except.error ("unreachable".data)
  fs := fsOk

/-- Counterexample world for C9: nothing cached and the HTTP request
fails. -/
def c9World : IngestWorld where
  txtFile := none
  gzFile := none
  network := Except.error ("connection refused".data)
  fs := fsOk

/-- A busy channel-bridge state: the progress receiver from a previous
ingestion is still held. -/
def c10BusyApp : App :=
  { App.new with
    progress_receiver := some [DatasetProgress.extracting]
    protein_receiver := some none }

/-- A bridge state whose result channel holds the terminal message. -/
def c10DoneApp : App :=
  { App.new with
    progress_receiver := some []
    protein_receiver := some (some (Except.ok [blankProtein])) }

/-- Boolean equality of characters is decided propositional equality. -/
lemma beq_eq_decide_char (x y : Char) : (x == y) = decide (x = y) := by
  by_cases h : x = y
  · simp [h]
  · simp [h]

/-- Counting matching positions over a zip equals counting matching
indices below the shorter length. -/
lemma zip_count_eq_range_count (l1 l2 : List Char) :
    ((l1.zip l2).filter (fun p => p.1 == p.2)).length =
      ((List.range (min l1.length l2.length)).filter
        (fun i => l1.getD i ' ' == l2.getD i ' ')).length := by
  induction l1 generalizing l2 with
  | nil => simp
  | cons a l1 ih =>
    cases l2 with
    | nil => simp
    | cons b l2 =>
      have hs : min (a :: l1).length (b :: l2).length =
          (min l1.length l2.length) + 1 := by
        simp [Nat.succ_min_succ]
      rw [hs, List.range_succ_eq_map, List.zip_cons_cons, List.filter_cons,
        List.filter_cons]
      simp only [List.getD_cons_zero]
      by_cases hab : a == b
      · simp only [hab, if_true, List.length_cons, List.filter_map,
          List.length_map, Function.comp_def, Nat.succ_eq_add_one,
          List.getD_cons_succ]
        rw [ih l2]
      · simp only [hab, if_false, Bool.false_eq_true, List.filter_map,
          List.length_map, Function.comp_def, Nat.succ_eq_add_one,
          List.getD_cons_succ]
        rw [ih l2]

/-- The `take min_len` in `calculate_dna_similarity` is the identity on
the zipped list. -/
lemma dna_matches_eq (seq1 seq2 : Str) :
    dna_matches seq1 seq2 =
      (((seq1.map Char.toUpper).zip (seq2.map Char.toUpper)).filter
        (fun p => p.1 == p.2)).length := by
  have h : dna_min_len seq1 seq2 =
      ((seq1.map Char.toUpper).zip (seq2.map Char.toUpper)).length := by
    simp [dna_min_len, List.length_zip]
  simp only [dna_matches]
  rw [h, List.take_length]

/-- The engine's similarity agrees with the spec's positional similarity
everywhere. -/
lemma dna_similarity_eq_spec (a b : Str) :
    calculate_dna_similarity a b = spec_positional_similarity a b := by
  unfold calculate_dna_similarity spec_positional_similarity dna_min_len
  simp only [List.length_map]
  by_cases hm : min a.length b.length = 0
  · simp [hm]
  · simp only [hm, if_false]
    congr 2
    rw [dna_matches_eq, zip_count_eq_range_count]
    simp only [List.length_map]
    have hfilter : List.filter
        (fun i => (a.map Char.toUpper).getD i ' ' == (b.map Char.toUpper).getD i ' ')
        (List.range (min a.length b.length)) =
        List.filter
          (fun i => decide ((a.getD i ' ').toUpper = (b.getD i ' ').toUpper))
          (List.range (min a.length b.length)) := by
      apply List.filter_congr
      intro i hi
      have hilt := List.mem_range.mp hi
      have hia : i < a.length := lt_of_lt_of_le hilt (min_le_left _ _)
      have hib : i < b.length := lt_of_lt_of_le hilt (min_le_right _ _)
      have h1 : (a.map Char.toUpper).getD i ' ' = (a.getD i ' ').toUpper := by
        rw [List.getD_eq_getElem _ _ (by simpa using hia),
          List.getD_eq_getElem _ _ hia, List.getElem_map]
      have h2 : (b.map Char.toUpper).getD i ' ' = (b.getD i ' ').toUpper := by
        rw [List.getD_eq_getElem _ _ (by simpa using hib),
          List.getD_eq_getElem _ _ hib, List.getElem_map]
      rw [h1, h2]
      exact beq_eq_decide_char _ _
    rw [hfilter]

/-- Every position of a self-zip matches. -/
lemma self_zip_matches (u : List Char) :
    ((u.zip u).filter (fun p => p.1 == p.2)).length = u.length := by
  induction u with
  | nil => simp
  | cons a u ih => simp [List.filter_cons, ih]

/-- C6 (confirmed): `calculate_dna_similarity a b` equals the number of
positions `i < min (len a) (len b)` with equal uppercased characters,
divided by that minimum and multiplied by 100 (as captured verbatim by
`spec_positional_similarity`); it is `0` when either input is empty; it is
`100` on every non-empty input compared with itself; and
`calculate_dna_similarity "ATCG" "TTCG" = 75` and
`calculate_dna_similarity "ATCG" "TTTT" = 25`. -/
theorem C6_dna_similarity_spec :
    (∀ a b : Str, calculate_dna_similarity a b = spec_positional_similarity a b) ∧
    (∀ b : Str, calculate_dna_similarity [] b = 0) ∧
    (∀ a : Str, calculate_dna_similarity a [] = 0) ∧
    (∀ a : Str, a ≠ [] → calculate_dna_similarity a a = 100) ∧
    calculate_dna_similarity ("ATCG".data) ("TTCG".data) = 75 ∧
    calculate_dna_similarity ("ATCG".data) ("TTTT".data) = 25 := by
  refine ⟨dna_similarity_eq_spec, ?_, ?_, ?_, ?_, ?_⟩
  · intro b
    simp [calculate_dna_similarity, dna_min_len]
  · intro a
    simp [calculate_dna_similarity, dna_min_len]
  · intro a ha
    have hlen : a.length ≠ 0 := by simpa using ha
    have h := dna_matches_eq a a
    rw [self_zip_matches, List.length_map] at h
    simp only [calculate_dna_similarity, dna_min_len, List.length_map,
      min_self, h]
    rw [if_neg hlen, div_self (Nat.cast_ne_zero.mpr hlen), one_mul]
  · have h1 : dna_matches ("ATCG".data) ("TTCG".data) = 3 := by decide
    have h2 : dna_min_len ("ATCG".data) ("TTCG".data) = 4 := by decide
    rw [calculate_dna_similarity, h1, h2]
    norm_num
  · have h1 : dna_matches ("ATCG".data) ("TTTT".data) = 1 := by decide
    have h2 : dna_min_len ("ATCG".data) ("TTTT".data) = 4 := by decide
    rw [calculate_dna_similarity, h1, h2]
    norm_num

/-- Witness for C6: the reflexivity clause applied at the concrete
non-empty input `"ATCG"`. -/
theorem C6_dna_similarity_spec_witness :
    ("ATCG".data ≠ ([] : Str)) ∧
      calculate_dna_similarity ("ATCG".data) ("ATCG".data) = 100 :=
  ⟨by decide, C6_dna_similarity_spec.2.2.2.1 ("ATCG".data) (by decide)⟩

/-- C4 (confirmed): the recompute trigger of `App::update_sequences` is
true exactly when `current_length < 10`, or `previous_length = 0`, or
`|current_length - previous_length| ≥ 3`; the four literal cases from the
specification hold; and `update_sequences` leaves `protein_match_needed`
set exactly when it was already set or the trigger fires on the new input
length. -/
theorem C4_needs_recompute_spec :
    (∀ previous current : Nat,
      needsRecompute previous current = true ↔
        (current < 10 ∨ previous = 0 ∨
          3 ≤ ((current : ℤ) - (previous : ℤ)).natAbs)) ∧
    needsRecompute 0 1 = true ∧
    needsRecompute 20 21 = false ∧
    needsRecompute 20 23 = true ∧
    needsRecompute 5 7 = true ∧
    (∀ app : App, app.update_sequences.protein_match_needed =
      (app.protein_match_needed ||
        needsRecompute app.last_input_length app.update_sequences.input.length)) := by
  refine ⟨?_, by decide, by decide, by decide, by decide, ?_⟩
  · intro previous current
    simp only [needsRecompute, Bool.or_eq_true, decide_eq_true_eq, Nat.dist]
    omega
  · intro app
    by_cases hp : app.is_positive_strand
    · by_cases hn : needsRecompute app.last_input_length app.input.length
      · simp [App.update_sequences, hp, hn]
      · simp [App.update_sequences, hp, hn]
    · by_cases hn : needsRecompute app.last_input_length app.complementary.length
      · simp [App.update_sequences, hp, hn]
      · simp [App.update_sequences, hp, hn]

/-- The base of a max-fold bounds the fold. -/
lemma le_foldr_max (b : ℚ) (l : List ℚ) : b ≤ l.foldr max b := by
  induction l with
  | nil => exact le_refl b
  | cons x xs ih => exact le_trans ih (le_max_right x _)

/-- A max-fold absorbs a max in its base. -/
lemma foldr_max_absorb (a b : ℚ) (l : List ℚ) :
    l.foldr max (max a b) = max a (l.foldr max b) := by
  induction l with
  | nil => rfl
  | cons x xs ih => rw [List.foldr_cons, List.foldr_cons, ih, max_left_comm]

/-- One unfolding step of `matchLoop`: the strand-selected comparison
collapses to `relevant_similarity`/`compare_string` and both distributions
get their values appended regardless of the best-match branch taken. -/
lemma matchLoop_cons (input complementary : Str) (protein : SmallProtein)
    (rest : List SmallProtein) (b : ℚ) (m : Option SmallProtein)
    (pos : List Bool) (pl nl : List ℚ) :
    matchLoop input complementary ⟨b, m, pos, pl, nl⟩ (protein :: rest) =
      matchLoop input complementary
        (if b < relevant_similarity input complementary protein then
          ⟨relevant_similarity input complementary protein, some protein,
            identify_matching_positions
              (compare_string input complementary protein) protein.rna_seq,
            pl ++ [calculate_dna_similarity input protein.rna_seq],
            nl ++ [calculate_dna_similarity complementary protein.rna_seq]⟩
        else
          ⟨b, m, pos, pl ++ [calculate_dna_similarity input protein.rna_seq],
            nl ++ [calculate_dna_similarity complementary protein.rna_seq]⟩) rest := by
  by_cases hstrand : protein.strand = ['-'] <;>
    by_cases hsb : b < relevant_similarity input complementary protein <;>
    simp [matchLoop, relevant_similarity, compare_string, hstrand, hsb,
      gt_iff_lt] at hsb ⊢

/-- Characterisation of the best-match components of `matchLoop`: the
running best similarity becomes the max-fold of the relevant similarities
over the loop's starting threshold; when some record strictly beats the
threshold, the selected record is the earliest one attaining that maximum
and its stored mask is the strand-selected comparison's mask; otherwise
the starting best, mask included, survives untouched. -/
lemma matchLoop_best (input complementary : Str) :
    ∀ (ps : List SmallProtein) (b : ℚ) (m : Option SmallProtein)
      (pos : List Bool) (pl nl : List ℚ),
      (matchLoop input complementary ⟨b, m, pos, pl, nl⟩ ps).best_similarity =
          (ps.map (relevant_similarity input complementary)).foldr max b ∧
        (b < (ps.map (relevant_similarity input complementary)).foldr max b →
          (matchLoop input complementary ⟨b, m, pos, pl, nl⟩ ps).best_match =
            ps.find? (fun p => relevant_similarity input complementary p =
              (ps.map (relevant_similarity input complementary)).foldr max b) ∧
          ∀ p, (matchLoop input complementary ⟨b, m, pos, pl, nl⟩ ps).best_match
              = some p →
            (matchLoop input complementary ⟨b, m, pos, pl, nl⟩ ps).best_matching_positions =
              identify_matching_positions
                (compare_string input complementary p) p.rna_seq) ∧
        (¬ b < (ps.map (relevant_similarity input complementary)).foldr max b →
          (matchLoop input complementary ⟨b, m, pos, pl, nl⟩ ps).best_match = m ∧
          (matchLoop input complementary ⟨b, m, pos, pl, nl⟩ ps).best_matching_positions
            = pos) := by
  intro ps
  induction ps with
  | nil =>
    intro b m pos pl nl
    refine ⟨rfl, fun h => absurd h (lt_irrefl b), fun _ => ⟨rfl, rfl⟩⟩
  | cons protein rest ih =>
    intro b m pos pl nl
    have hstep : matchLoop input complementary ⟨b, m, pos, pl, nl⟩ (protein :: rest) =
        matchLoop input complementary
          (if b < relevant_similarity input complementary protein then
            ⟨relevant_similarity input complementary protein, some protein,
              identify_matching_positions
                (compare_string input complementary protein) protein.rna_seq,
              pl ++ [calculate_dna_similarity input protein.rna_seq],
              nl ++ [calculate_dna_similarity complementary protein.rna_seq]⟩
          else
            ⟨b, m, pos, pl ++ [calculate_dna_similarity input protein.rna_seq],
              nl ++ [calculate_dna_similarity complementary protein.rna_seq]⟩) rest := by
      by_cases hstrand : protein.strand = ['-'] <;>
        by_cases hsb : b < relevant_similarity input complementary protein <;>
        simp [matchLoop, relevant_similarity, compare_string, hstrand, hsb,
          gt_iff_lt]
    have hM : ((protein :: rest).map (relevant_similarity input complementary)).foldr max b =
        max (relevant_similarity input complementary protein)
          ((rest.map (relevant_similarity input complementary)).foldr max b) := by
      rw [List.map_cons, List.foldr_cons]
    rw [hstep, hM]
    by_cases hsb : b < relevant_similarity input complementary protein
    · rw [if_pos hsb]
      obtain ⟨ih1, ih2, ih3⟩ := ih (relevant_similarity input complementary protein)
        (some protein)
        (identify_matching_positions
          (compare_string input complementary protein) protein.rna_seq)
        (pl ++ [calculate_dna_similarity input protein.rna_seq])
        (nl ++ [calculate_dna_similarity complementary protein.rna_seq])
      have habs : (rest.map (relevant_similarity input complementary)).foldr max
          (relevant_similarity input complementary protein) =
          max (relevant_similarity input complementary protein)
            ((rest.map (relevant_similarity input complementary)).foldr max b) := by
        rw [show relevant_similarity input complementary protein =
            max (relevant_similarity input complementary protein) b from
          (max_eq_left hsb.le).symm]
        rw [foldr_max_absorb]
        rw [max_eq_left hsb.le]
      rw [habs] at ih1 ih2 ih3
      by_cases hsM : relevant_similarity input complementary protein <
          max (relevant_similarity input complementary protein)
            ((rest.map (relevant_similarity input complementary)).foldr max b)
      · obtain ⟨ihfind, ihmask⟩ := ih2 hsM
        refine ⟨ih1, fun _ => ⟨?_, ihmask⟩, fun hcon => absurd
          (lt_of_lt_of_le hsb (le_max_left _ _)) hcon⟩
        rw [List.find?_cons_of_neg _ (by simpa using ne_of_lt hsM), ihfind]
      · obtain ⟨ihm, ihpos⟩ := ih3 hsM
        have hMs : max (relevant_similarity input complementary protein)
            ((rest.map (relevant_similarity input complementary)).foldr max b) =
            relevant_similarity input complementary protein :=
          le_antisymm (not_lt.mp hsM) (le_max_left _ _)
        refine ⟨ih1, fun _ => ⟨?_, ?_⟩, fun hcon => absurd
          (lt_of_lt_of_le hsb (le_max_left _ _)) hcon⟩
        · rw [List.find?_cons_of_pos _ (by simp [hMs]), ihm]
        · intro p hp
          rw [ihm] at hp
          obtain rfl : protein = p := by injection hp
          exact ihpos
    · rw [if_neg hsb]
      have hsble : relevant_similarity input complementary protein ≤ b := not_lt.mp hsb
      obtain ⟨ih1, ih2, ih3⟩ := ih b m pos
        (pl ++ [calculate_dna_similarity input protein.rna_seq])
        (nl ++ [calculate_dna_similarity complementary protein.rna_seq])
      by_cases hNb : b < (rest.map (relevant_similarity input complementary)).foldr max b
      · have hMN : max (relevant_similarity input complementary protein)
            ((rest.map (relevant_similarity input complementary)).foldr max b) =
            (rest.map (relevant_similarity input complementary)).foldr max b :=
          max_eq_right (le_trans hsble hNb.le)
        obtain ⟨ihfind, ihmask⟩ := ih2 hNb
        rw [hMN]
        refine ⟨ih1, fun _ => ⟨?_, ihmask⟩, fun hcon => absurd hNb hcon⟩
        rw [List.find?_cons_of_neg _
          (by simpa using ne_of_lt (lt_of_le_of_lt hsble hNb)), ihfind]
      · have hNeq : (rest.map (relevant_similarity input complementary)).foldr max b = b :=
          le_antisymm (not_lt.mp hNb) (le_foldr_max _ _)
        have hMb : max (relevant_similarity input complementary protein)
            ((rest.map (relevant_similarity input complementary)).foldr max b) = b := by
          rw [hNeq]
          exact max_eq_right hsble
        obtain ⟨ihm, ihpos⟩ := ih3 hNb
        rw [hMb]
        exact ⟨by rw [ih1, hNeq], fun hcon => absurd hcon (lt_irrefl b),
          fun _ => ⟨ihm, ihpos⟩⟩

/-- The two similarity distributions collected by `matchLoop` are exactly
the forward and reverse similarities of every record, in catalog order,
appended to the starting accumulators. -/
lemma matchLoop_sims (input complementary : Str) :
    ∀ (ps : List SmallProtein) (b : ℚ) (m : Option SmallProtein)
      (pos : List Bool) (pl nl : List ℚ),
      (matchLoop input complementary ⟨b, m, pos, pl, nl⟩ ps).positive_strand_similarities =
          pl ++ ps.map (fun p => calculate_dna_similarity input p.rna_seq) ∧
        (matchLoop input complementary ⟨b, m, pos, pl, nl⟩ ps).negative_strand_similarities =
          nl ++ ps.map (fun p => calculate_dna_similarity complementary p.rna_seq) := by
  intro ps
  induction ps with
  | nil =>
    intro b m pos pl nl
    simp [matchLoop]
  | cons protein rest ih =>
    intro b m pos pl nl
    rw [matchLoop_cons]
    by_cases hsb : b < relevant_similarity input complementary protein
    · rw [if_pos hsb]
      obtain ⟨ih1, ih2⟩ := ih (relevant_similarity input complementary protein)
        (some protein)
        (identify_matching_positions
          (compare_string input complementary protein) protein.rna_seq)
        (pl ++ [calculate_dna_similarity input protein.rna_seq])
        (nl ++ [calculate_dna_similarity complementary protein.rna_seq])
      rw [ih1, ih2]
      simp
    · rw [if_neg hsb]
      obtain ⟨ih1, ih2⟩ := ih b m pos
        (pl ++ [calculate_dna_similarity input protein.rna_seq])
        (nl ++ [calculate_dna_similarity complementary protein.rna_seq])
      rw [ih1, ih2]
      simp

/-- Evaluation helper: similarity of two concrete one-character sequences
that differ. -/
lemma sim_A_G : calculate_dna_similarity ['A'] ['G'] = 0 := by
  have h1 : dna_matches ['A'] ['G'] = 0 := by decide
  have h2 : dna_min_len ['A'] ['G'] = 1 := by decide
  rw [calculate_dna_similarity, h1, h2]
  norm_num

/-- Evaluation helper: similarity of `"T"` and `"G"`. -/
lemma sim_T_G : calculate_dna_similarity ['T'] ['G'] = 0 := by
  have h1 : dna_matches ['T'] ['G'] = 0 := by decide
  have h2 : dna_min_len ['T'] ['G'] = 1 := by decide
  rw [calculate_dna_similarity, h1, h2]
  norm_num

/-- C1 counterexample: in `c1App` the single catalog record trivially has
the highest relevant similarity (namely `0`), yet `find_closest_protein`
selects no record at all — `closest_protein` is `None`, not that record —
because the loop's strict `>` comparison starts from `0.0`. -/
theorem C1_strict_best_counterexample :
    c1App.small_proteins = [c1Rec] ∧
      relevant_similarity c1App.input c1App.complementary c1Rec = 0 ∧
      maxRelevant c1App.input c1App.complementary c1App.small_proteins = 0 ∧
      c1App.find_closest_protein.closest_protein = none := by
  refine ⟨rfl, ?_, ?_, ?_⟩
  · simp [relevant_similarity, c1App, c1Rec, blankProtein, sim_A_G]
  · simp [maxRelevant, relevant_similarity, c1App, c1Rec, blankProtein,
      sim_A_G, App.new]
  · simp [App.find_closest_protein, c1App, App.new, c1Rec, blankProtein,
      matchLoop, sim_A_G, sim_T_G]

/-- C1 (amended): for a non-empty query and non-empty catalog, every
record's own strand annotation selects the relevant comparison
(`relevant_similarity`/`compare_string`), and `closest_protein` is the
earliest record attaining the highest relevant similarity — provided that
maximum strictly exceeds the loop's initial threshold `0.0` (strict `>`,
so the earliest record wins exact ties); when every relevant similarity is
`0` no record is selected.  The stored mask is the winning record's
strand-selected comparison mask. -/
theorem C1_best_match_strand_selection :
    ∀ app : App, app.input ≠ [] → app.small_proteins ≠ [] →
      app.find_closest_protein.closest_protein =
          specBest app.input app.complementary app.small_proteins ∧
        ∀ r, app.find_closest_protein.closest_protein = some r →
          app.find_closest_protein.matching_positions =
            identify_matching_positions
              (compare_string app.input app.complementary r) r.rna_seq := by
  intro app h1 h2
  have hcond : ¬(app.input.isEmpty || app.small_proteins.isEmpty) = true := by
    simp [List.isEmpty_iff, h1, h2]
  obtain ⟨hb1, hb2, hb3⟩ := matchLoop_best app.input app.complementary
    app.small_proteins 0 none [] [] []
  unfold App.find_closest_protein
  rw [if_neg hcond]
  simp only
  by_cases hpos : 0 < maxRelevant app.input app.complementary app.small_proteins
  · have hpos' : (0 : ℚ) <
        (app.small_proteins.map
          (relevant_similarity app.input app.complementary)).foldr max 0 := hpos
    obtain ⟨hfind, hmask⟩ := hb2 hpos'
    refine ⟨?_, ?_⟩
    · rw [hfind, specBest, if_pos hpos]
      rfl
    · intro r hr
      exact hmask r hr
  · obtain ⟨hm, _⟩ := hb3 hpos
    refine ⟨?_, ?_⟩
    · rw [hm, specBest, if_neg hpos]
    · intro r hr
      rw [hm] at hr
      exact absurd hr (Option.noConfusion)

/-- Witness for C1: at the concrete state `c1WitApp`, whose single record
has relevant similarity `100 > 0`, the amended characterisation applies. -/
theorem C1_best_match_strand_selection_witness :
    c1WitApp.find_closest_protein.closest_protein =
      specBest c1WitApp.input c1WitApp.complementary c1WitApp.small_proteins :=
  (C1_best_match_strand_selection c1WitApp (by decide) (by decide)).1

/-- Evaluation helper: similarity of `"A"` with itself. -/
lemma sim_A_A : calculate_dna_similarity ['A'] ['A'] = 100 := by
  have h1 : dna_matches ['A'] ['A'] = 1 := by decide
  have h2 : dna_min_len ['A'] ['A'] = 1 := by decide
  rw [calculate_dna_similarity, h1, h2]
  norm_num

/-- Evaluation helper: similarity of `"T"` and `"A"`. -/
lemma sim_T_A : calculate_dna_similarity ['T'] ['A'] = 0 := by
  have h1 : dna_matches ['T'] ['A'] = 0 := by decide
  have h2 : dna_min_len ['T'] ['A'] = 1 := by decide
  rw [calculate_dna_similarity, h1, h2]
  norm_num

/-- Evaluation helper: confidence of the singleton distribution `[100]`. -/
lemma conf_single_100 : calculate_strand_confidence [100] = 100 := by
  norm_num [calculate_strand_confidence, sortDesc, List.insertionSort,
    List.orderedInsert]

/-- Evaluation helper: confidence of the singleton distribution `[0]`. -/
lemma conf_single_0 : calculate_strand_confidence [0] = 0 := by
  norm_num [calculate_strand_confidence, sortDesc, List.insertionSort,
    List.orderedInsert]

/-- C2 counterexample: in `c2App` the negative strand is active, yet
`find_closest_protein` stores the forward distribution's confidence (100)
in `current_strand_confidence`, not the reverse distribution's (0): the
assignment does not depend on `is_positive_strand` in `src/app.rs`. -/
theorem C2_active_strand_counterexample :
    c2App.is_positive_strand = false ∧
      c2App.find_closest_protein.current_strand_confidence = 100 ∧
      calculate_strand_confidence
        (c2App.small_proteins.map
          (fun p => calculate_dna_similarity c2App.complementary p.rna_seq)) = 0 ∧
      c2App.find_closest_protein.current_strand_confidence ≠
        calculate_strand_confidence
          (c2App.small_proteins.map
            (fun p => calculate_dna_similarity c2App.complementary p.rna_seq)) := by
  have hcurrent : c2App.find_closest_protein.current_strand_confidence = 100 := by
    simp [App.find_closest_protein, c2App, App.new, c1WitRec, blankProtein,
      matchLoop, sim_A_A, sim_T_A, conf_single_100]
  have hrev : calculate_strand_confidence
      (c2App.small_proteins.map
        (fun p => calculate_dna_similarity c2App.complementary p.rna_seq)) = 0 := by
    simp [c2App, App.new, c1WitRec, blankProtein, sim_T_A, conf_single_0]
  refine ⟨rfl, hcurrent, hrev, ?_⟩
  rw [hcurrent, hrev]
  norm_num

/-- C2 (amended): `calculate_strand_confidence` is `0` on the empty
distribution and otherwise the mean of the top `min(5, len)` values (the
sorted list being a descending permutation of the input), with
`[90, 80, 70, 60, 50, 10] ↦ 70`; and after `find_closest_protein` on a
non-empty query and catalog, `current_strand_confidence` is always the
confidence of the forward distribution and `opposite_strand_confidence`
always that of the reverse distribution, independently of
`is_positive_strand`. -/
theorem C2_strand_confidence_spec :
    calculate_strand_confidence [] = 0 ∧
      (∀ l : List ℚ, l ≠ [] →
        (sortDesc l).Perm l ∧ List.Sorted (· ≥ ·) (sortDesc l) ∧
          calculate_strand_confidence l =
            ((sortDesc l).take (min l.length 5)).sum / ((min l.length 5 : Nat) : ℚ)) ∧
      calculate_strand_confidence [90, 80, 70, 60, 50, 10] = 70 ∧
      (∀ app : App, app.input ≠ [] → app.small_proteins ≠ [] →
        app.find_closest_protein.current_strand_confidence =
            calculate_strand_confidence
              (app.small_proteins.map
                (fun p => calculate_dna_similarity app.input p.rna_seq)) ∧
          app.find_closest_protein.opposite_strand_confidence =
            calculate_strand_confidence
              (app.small_proteins.map
                (fun p => calculate_dna_similarity app.complementary p.rna_seq))) := by
  refine ⟨rfl, ?_, ?_, ?_⟩
  · intro l hl
    haveI htot : IsTotal ℚ (fun a b : ℚ => a ≥ b) := ⟨fun a b => le_total b a⟩
    haveI htrans : IsTrans ℚ (fun a b : ℚ => a ≥ b) :=
      ⟨fun _ _ _ h1 h2 => le_trans h2 h1⟩
    refine ⟨List.perm_insertionSort _ l, List.sorted_insertionSort _ l, ?_⟩
    have hne : l.isEmpty = false := by simp [List.isEmpty_iff, hl]
    have hmin : ¬ min l.length 5 = 0 := by
      have : l.length ≠ 0 := by simp [hl]
      omega
    simp only [calculate_strand_confidence, hne, Bool.false_eq_true, if_false,
      hmin]
  · have hsort : sortDesc [90, 80, 70, 60, 50, 10] =
        [90, 80, 70, 60, 50, 10] := by
      norm_num [sortDesc, List.insertionSort, List.orderedInsert]
    norm_num [calculate_strand_confidence, hsort]
  · intro app h1 h2
    have hcond : ¬(app.input.isEmpty || app.small_proteins.isEmpty) = true := by
      simp [List.isEmpty_iff, h1, h2]
    obtain ⟨hp, hn⟩ := matchLoop_sims app.input app.complementary
      app.small_proteins 0 none [] [] []
    unfold App.find_closest_protein
    rw [if_neg hcond]
    simp only
    rw [hp, hn]
    simp

/-- Witness for C2: the sorting clause at `[5]` and the assignment clause
at the concrete state `c1WitApp`. -/
theorem C2_strand_confidence_spec_witness :
    (sortDesc [5]).Perm [5] ∧
      c1WitApp.find_closest_protein.current_strand_confidence =
        calculate_strand_confidence
          (c1WitApp.small_proteins.map
            (fun p => calculate_dna_similarity c1WitApp.input p.rna_seq)) :=
  ⟨(C2_strand_confidence_spec.2.1 [5] (by decide)).1,
    (C2_strand_confidence_spec.2.2.2 c1WitApp (by decide) (by decide)).1⟩

/-- Evaluation helper: similarity of `"UACG"` against `"AUGC"` (no
position matches). -/
lemma sim_UACG_AUGC :
    calculate_dna_similarity ['U', 'A', 'C', 'G'] ['A', 'U', 'G', 'C'] = 0 := by
  have h1 : dna_matches ['U', 'A', 'C', 'G'] ['A', 'U', 'G', 'C'] = 0 := by decide
  have h2 : dna_min_len ['U', 'A', 'C', 'G'] ['A', 'U', 'G', 'C'] = 4 := by decide
  rw [calculate_dna_similarity, h1, h2]
  norm_num

/-- Evaluation helper: similarity of `"AUGC"` with itself. -/
lemma sim_AUGC_AUGC :
    calculate_dna_similarity ['A', 'U', 'G', 'C'] ['A', 'U', 'G', 'C'] = 100 := by
  have h1 : dna_matches ['A', 'U', 'G', 'C'] ['A', 'U', 'G', 'C'] = 4 := by decide
  have h2 : dna_min_len ['A', 'U', 'G', 'C'] ['A', 'U', 'G', 'C'] = 4 := by decide
  rw [calculate_dna_similarity, h1, h2]
  norm_num

/-- C3 counterexample: in the specified scenario (`Minus` record `"AUGC"`,
forward `"AUGC"`, complement `"UACG"`), `find_closest_protein` does not
select the record — `closest_protein` is `None` and the stored mask is
empty, not `[false, false, false, false]` — because the reverse similarity
`0` does not strictly exceed the initial `0.0` threshold. -/
theorem C3_minus_record_counterexample :
    c3App.find_closest_protein.closest_protein = none ∧
      c3App.find_closest_protein.matching_positions = [] ∧
      c3App.find_closest_protein.matching_positions ≠
        [false, false, false, false] := by
  have h : c3App.find_closest_protein.closest_protein = none ∧
      c3App.find_closest_protein.matching_positions = [] := by
    constructor <;>
      simp [App.find_closest_protein, c3App, App.new, c3Rec, blankProtein,
        matchLoop, sim_UACG_AUGC, sim_AUGC_AUGC]
  refine ⟨h.1, h.2, ?_⟩
  rw [h.2]
  simp

/-- C3 (amended): in the specified scenario the record's `Minus` strand
does select the reverse comparison — `"UACG"` against `"AUGC"`, similarity
`0`, all-false position mask — but that comparison does not win:
`closest_protein` stays `None` and `matching_positions` stays empty, since
`0` is not strictly greater than the loop's initial `0.0`. -/
theorem C3_minus_record_zero_similarity :
    relevant_similarity c3App.input c3App.complementary c3Rec =
        calculate_dna_similarity c3App.complementary c3Rec.rna_seq ∧
      calculate_dna_similarity c3App.complementary c3Rec.rna_seq = 0 ∧
      identify_matching_positions c3App.complementary c3Rec.rna_seq =
        [false, false, false, false] ∧
      c3App.find_closest_protein.closest_protein = none ∧
      c3App.find_closest_protein.matching_positions = [] := by
  refine ⟨by simp [relevant_similarity, c3Rec, blankProtein], ?_, ?_, ?_, ?_⟩
  · simp [c3App, c3Rec, App.new, blankProtein, sim_UACG_AUGC]
  · decide
  · simp [App.find_closest_protein, c3App, App.new, c3Rec, blankProtein,
      matchLoop, sim_UACG_AUGC, sim_AUGC_AUGC]
  · simp [App.find_closest_protein, c3App, App.new, c3Rec, blankProtein,
      matchLoop, sim_UACG_AUGC, sim_AUGC_AUGC]

/-- C5 (confirmed): with an empty query or an empty record list, both
`find_closest_protein` variants short-circuit to the empty result — no
best record, empty mask, both confidences `0`, and (in the `src/main.rs`
variant) an empty ranked `histogram_data` list — leaving every other field
untouched, for every record list. -/
theorem C5_empty_short_circuit :
    (∀ app : App, app.input = [] ∨ app.small_proteins = [] →
      app.find_closest_protein =
        { app with
          closest_protein := none
          matching_positions := []
          current_strand_confidence := 0
          opposite_strand_confidence := 0 }) ∧
    (∀ app : MainApp, app.input = [] ∨ app.small_proteins = [] →
      app.find_closest_protein =
        { app with
          closest_protein := none
          matching_positions := []
          current_strand_confidence := 0
          opposite_strand_confidence := 0
          histogram_data := [] }) := by
  constructor
  · intro app h
    have hcond : (app.input.isEmpty || app.small_proteins.isEmpty) = true := by
      rcases h with h | h <;> simp [h]
    unfold App.find_closest_protein
    rw [if_pos hcond]
  · intro app h
    have hcond : (app.input.isEmpty || app.small_proteins.isEmpty) = true := by
      rcases h with h | h <;> simp [h]
    unfold MainApp.find_closest_protein
    rw [if_pos hcond]

/-- Witness for C5: both variants applied at concrete states with empty
query, non-empty catalog and stale non-empty match output. -/
theorem C5_empty_short_circuit_witness :
    c5WitApp.find_closest_protein =
        { c5WitApp with
          closest_protein := none
          matching_positions := []
          current_strand_confidence := 0
          opposite_strand_confidence := 0 } ∧
      c5WitMainApp.find_closest_protein =
        { c5WitMainApp with
          closest_protein := none
          matching_positions := []
          current_strand_confidence := 0
          opposite_strand_confidence := 0
          histogram_data := [] } :=
  ⟨C5_empty_short_circuit.1 c5WitApp (Or.inl rfl),
    C5_empty_short_circuit.2 c5WitMainApp (Or.inl rfl)⟩

/-- A data line parses to a record exactly when it has at least 12
tab-separated fields. -/
lemma parseLine_isSome_iff (line : Str) :
    (parseLine line).isSome = true ↔ 12 ≤ (splitTab line).length := by
  constructor
  · intro hs
    by_contra hlt
    unfold parseLine at hs
    rw [if_pos (by omega)] at hs
    simp at hs
  · intro h
    unfold parseLine
    rw [if_neg (by omega)]
    simp

/-- The record list of the parsing phase is the `filterMap` of `parseLine`
over the data lines. -/
lemma parsePhase_snd (content : List Str) :
    (parsePhase content).2 = (content.drop 1).filterMap parseLine := by
  unfold parsePhase
  generalize content.drop 1 = dls
  suffices h : ∀ (acc : List DatasetProgress × List SmallProtein),
      (dls.foldl
        (fun acc line =>
          match parseLine line with
          | none => acc
          | some p =>
            let proteins := acc.2 ++ [p]
            let events :=
              if proteins.length % 1000 = 0 then
                acc.1 ++ [DatasetProgress.parsing proteins.length]
              else acc.1
            (events, proteins)) acc).2 = acc.2 ++ dls.filterMap parseLine by
    simpa using h ([], [])
  induction dls with
  | nil => intro acc; simp
  | cons line rest ih =>
    intro acc
    rw [List.foldl_cons, List.filterMap_cons]
    cases hp : parseLine line with
    | none => simp only [hp]; rw [ih]
    | some p =>
      simp only [hp]
      rw [ih]
      simp

/-- C7 (confirmed): every line with at least 12 tab-separated fields
yields a record and every shorter line is silently dropped (the kept-row
count is exactly the count of sufficiently wide data lines); numeric
fields that are placeholders or otherwise unparseable default to `0` /
`0.0`; and concretely a 12-field row with `"NA"` numeric fields is kept
with zero defaults while an 11-field row disappears from the result. -/
theorem C7_tolerant_field_parsing :
    (∀ line : Str, 12 ≤ (splitTab line).length → (parseLine line).isSome) ∧
      (∀ line : Str, (splitTab line).length < 12 → parseLine line = none) ∧
      (∀ s : Str, rustParseUsize (trimStr s) = none → parse_usize_field s = 0) ∧
      (∀ s : Str, rustParseF64 (trimStr s) = none →
        parse_float_field s = F64.finite 0) ∧
      (∀ lines : List Str, (parseDataset lines).length =
        ((lines.drop 1).filter
          (fun l => decide (12 ≤ (splitTab l).length))).length) ∧
      (parse_usize_field ("NA".data) = 0 ∧ parse_usize_field ("NULL".data) = 0 ∧
        parse_usize_field ("N/A".data) = 0 ∧ parse_usize_field ("-".data) = 0 ∧
        parse_usize_field (".".data) = 0 ∧ parse_usize_field [] = 0 ∧
        parse_usize_field ("na".data) = 0 ∧ parse_usize_field ("Null".data) = 0) ∧
      (parse_float_field ("NA".data) = F64.finite 0 ∧
        parse_float_field ("NULL".data) = F64.finite 0 ∧
        parse_float_field ("N/A".data) = F64.finite 0 ∧
        parse_float_field ("-".data) = F64.finite 0 ∧
        parse_float_field (".".data) = F64.finite 0 ∧
        parse_float_field [] = F64.finite 0 ∧
        parse_float_field ("na".data) = F64.finite 0 ∧
        parse_float_field ("n/A".data) = F64.finite 0) ∧
      ((parseLine c7GoodLine).map SmallProtein.length = some 0 ∧
        (parseLine c7GoodLine).map SmallProtein.phylo_csf_mean =
          some (F64.finite 0)) ∧
      parseLine c7BadLine = none ∧
      (parseDataset [c7Header, c7GoodLine, c7BadLine]).length = 1 := by
  refine ⟨?_, ?_, ?_, ?_, ?_, by decide, by decide, by decide, by decide,
    by decide⟩
  · intro line h
    exact (parseLine_isSome_iff line).mpr h
  · intro line h
    unfold parseLine
    rw [if_pos h]
  · intro s h
    unfold parse_usize_field
    by_cases hp : trimStr s = [] ∨ trimStr s = ('N' :: 'A' :: []) ∨
        trimStr s = ('N' :: 'U' :: 'L' :: 'L' :: []) ∨
        trimStr s = ('n' :: 'u' :: 'l' :: 'l' :: []) ∨
        trimStr s = ('N' :: '/' :: 'A' :: []) ∨
        trimStr s = ('n' :: '/' :: 'a' :: []) ∨
        trimStr s = ('-' :: []) ∨ trimStr s = ('.' :: []) <;>
      simp [hp, h]
  · intro s h
    unfold parse_float_field
    by_cases hp : trimStr s = [] ∨ trimStr s = ('N' :: 'A' :: []) ∨
        trimStr s = ('N' :: 'U' :: 'L' :: 'L' :: []) ∨
        trimStr s = ('n' :: 'u' :: 'l' :: 'l' :: []) ∨
        trimStr s = ('N' :: '/' :: 'A' :: []) ∨
        trimStr s = ('n' :: '/' :: 'a' :: []) ∨
        trimStr s = ('-' :: []) ∨ trimStr s = ('.' :: []) ∨
        trimStr s = ('N' :: 'a' :: 'N' :: []) ∨
        trimStr s = ('n' :: 'a' :: 'n' :: []) <;>
      simp [hp, h]
  · intro lines
    rw [parseDataset, parsePhase_snd]
    generalize lines.drop 1 = dls
    induction dls with
    | nil => rfl
    | cons line rest ih =>
      rw [List.filterMap_cons, List.filter_cons]
      by_cases h12 : 12 ≤ (splitTab line).length
      · obtain ⟨p, hp⟩ := Option.isSome_iff_exists.mp
          ((parseLine_isSome_iff line).mpr h12)
        rw [hp]
        simp [h12, ih]
      · have hnone : parseLine line = none := by
          unfold parseLine
          rw [if_pos (by omega)]
        rw [hnone]
        simp [h12, ih]

/-- Witness for C7: the quantified clauses applied at the concrete 12- and
11-field lines and at an unparseable token. -/
theorem C7_tolerant_field_parsing_witness :
    (parseLine c7GoodLine).isSome ∧
      parseLine c7BadLine = none ∧
      parse_usize_field ("12abc".data) = 0 ∧
      parse_float_field ("1.2.3".data) = F64.finite 0 :=
  ⟨C7_tolerant_field_parsing.1 c7GoodLine (by decide),
    C7_tolerant_field_parsing.2.1 c7BadLine (by decide),
    C7_tolerant_field_parsing.2.2.1 ("12abc".data) (by decide),
    C7_tolerant_field_parsing.2.2.2.1 ("1.2.3".data) (by decide)⟩

/-- Every event emitted by the parsing phase is a `Parsing` event. -/
lemma parsePhase_events (content : List Str) :
    ∀ e ∈ (parsePhase content).1, ∃ n, e = DatasetProgress.parsing n := by
  unfold parsePhase
  generalize content.drop 1 = dls
  suffices h : ∀ (acc : List DatasetProgress × List SmallProtein),
      (∀ e ∈ acc.1, ∃ n, e = DatasetProgress.parsing n) →
      ∀ e ∈ (dls.foldl
        (fun acc line =>
          match parseLine line with
          | none => acc
          | some p =>
            let proteins := acc.2 ++ [p]
            let events :=
              if proteins.length % 1000 = 0 then
                acc.1 ++ [DatasetProgress.parsing proteins.length]
              else acc.1
            (events, proteins)) acc).1, ∃ n, e = DatasetProgress.parsing n by
    exact h ([], []) (by simp)
  induction dls with
  | nil => intro acc hacc; exact hacc
  | cons line rest ih =>
    intro acc hacc
    rw [List.foldl_cons]
    cases hp : parseLine line with
    | none => exact ih acc hacc
    | some p =>
      apply ih
      intro e he
      simp only at he
      by_cases hmod : (acc.2 ++ [p]).length % 1000 = 0
      · rw [if_pos hmod] at he
        rcases List.mem_append.mp he with h | h
        · exact hacc e h
        · exact ⟨(acc.2 ++ [p]).length, by simpa using h⟩
      · rw [if_neg hmod] at he
        exact hacc e he

/-- The parsing phase emits no `Error` event. -/
lemma parsePhase_no_error (content : List Str) (msg : Str) :
    DatasetProgress.error msg ∉ (parsePhase content).1 := by
  intro hmem
  obtain ⟨n, hn⟩ := parsePhase_events content _ hmem
  exact DatasetProgress.noConfusion hn

/-- Every event the fallible parsing loop appends is a `Parsing`
event. -/
lemma parseFileLoop_events :
    ∀ (ls : List LineRead) (ev : List DatasetProgress) (ps : List SmallProtein),
      (∀ e ∈ ev, ∃ n, e = DatasetProgress.parsing n) →
      ∀ e ∈ (parseFileLoop ls ev ps).1, ∃ n, e = DatasetProgress.parsing n := by
  intro ls
  induction ls with
  | nil => intro ev ps hev; exact hev
  | cons lr rest ih =>
    intro ev ps hev
    cases lr with
    | error e =>
      simp only [parseFileLoop]
      exact hev
    | ok line =>
      cases hp : parseLine line with
      | none =>
        simp only [parseFileLoop, hp]
        exact ih ev ps hev
      | some p =>
        simp only [parseFileLoop, hp]
        apply ih
        intro e he
        by_cases hmod : (ps ++ [p]).length % 1000 = 0
        · rw [if_pos hmod] at he
          rcases List.mem_append.mp he with h | h
          · exact hev e h
          · exact ⟨(ps ++ [p]).length, by simpa using h⟩
        · rw [if_neg hmod] at he
          exact hev e he

/-- On a fully readable file the fallible parsing loop agrees with the
pure parsing fold `parsePhase` (and always returns `Ok`). -/
lemma parseFileLoop_map_ok :
    ∀ (ls : List Str) (ev : List DatasetProgress) (ps : List SmallProtein),
      parseFileLoop (ls.map Except.ok) ev ps =
        ((ls.foldl
          (fun acc line =>
            match parseLine line with
            | none => acc
            | some p =>
              let proteins := acc.2 ++ [p]
              let events :=
                if proteins.length % 1000 = 0 then
                  acc.1 ++ [DatasetProgress.parsing proteins.length]
                else acc.1
              (events, proteins)) (ev, ps)).1,
          Except.ok (ls.foldl
            (fun acc line =>
              match parseLine line with
              | none => acc
              | some p =>
                let proteins := acc.2 ++ [p]
                let events :=
                  if proteins.length % 1000 = 0 then
                    acc.1 ++ [DatasetProgress.parsing proteins.length]
                  else acc.1
                (events, proteins)) (ev, ps)).2) := by
  intro ls
  induction ls with
  | nil => intro ev ps; rfl
  | cons line rest ih =>
    intro ev ps
    simp only [List.map_cons, parseFileLoop, List.foldl_cons]
    cases hp : parseLine line with
    | none =>
      simp only [hp]
      exact ih ev ps
    | some p =>
      simp only [hp]
      exact ih _ _

/-- On a fully readable file the fallible parsing phase is exactly the
pure `parsePhase`, wrapped in `Ok`. -/
lemma parseFilePhase_map_ok (lines : List Str) :
    parseFilePhase (lines.map Except.ok) =
      ((parsePhase lines).1, Except.ok (parsePhase lines).2) := by
  unfold parseFilePhase parsePhase
  rw [show (lines.map Except.ok).drop 1 = (lines.drop 1).map Except.ok from
    (List.map_drop Except.ok lines 1).symm]
  exact parseFileLoop_map_ok (lines.drop 1) [] []

/-- The parse step never modifies the world. -/
lemma parseFromFile_world (ev : List DatasetProgress) (content : List LineRead)
    (w : IngestWorld) : (parseFromFile ev content w).2.2 = w := by
  unfold parseFromFile
  cases w.fs.open_extracted_error with
  | some e => rfl
  | none =>
    cases h : (parseFilePhase content).2 with
    | ok ps => simp [h]
    | error e => simp [h]

/-- Draining the buffered progress events rewrites only
`dataset_progress`; every other field survives. -/
lemma drain_preserves (events : List DatasetProgress) (app : App) :
    ((events.foldl
        (fun (a : App) p => { a with dataset_progress := some p }) app).small_proteins
          = app.small_proteins) ∧
      ((events.foldl
        (fun (a : App) p => { a with dataset_progress := some p }) app).protein_receiver
          = app.protein_receiver) ∧
      ((events.foldl
        (fun (a : App) p => { a with dataset_progress := some p }) app).loading_error
          = app.loading_error) ∧
      ((events.foldl
        (fun (a : App) p => { a with dataset_progress := some p }) app).is_loading_proteins
          = app.is_loading_proteins) ∧
      ((events.foldl
        (fun (a : App) p => { a with dataset_progress := some p }) app).loaded_proteins_count
          = app.loaded_proteins_count) := by
  induction events generalizing app with
  | nil => exact ⟨rfl, rfl, rfl, rfl, rfl⟩
  | cons e rest ih => simpa using ih { app with dataset_progress := some e }

/-- With the plaintext cache present, the pipeline never modifies the
world. -/
lemma ingest_cached_world (w : IngestWorld) (content : List LineRead)
    (h : w.txtFile = some content) : (ingest w).2.2 = w := by
  unfold ingest
  cases hd : w.fs.data_dir_error with
  | some e => rfl
  | none =>
    rw [h]
    exact parseFromFile_world _ _ _

/-- With the plaintext cache present, every emitted event is
`CheckingCache`, a `Parsing` event, or `Complete`. -/
lemma ingest_cached_events (w : IngestWorld) (content : List LineRead)
    (h : w.txtFile = some content) :
    ∀ e ∈ (ingest w).1, e = DatasetProgress.checkingCache ∨
      (∃ n, e = DatasetProgress.parsing n) ∨ e = DatasetProgress.complete := by
  unfold ingest
  cases hd : w.fs.data_dir_error with
  | some e => simp
  | none =>
    rw [h]
    unfold parseFromFile
    cases w.fs.open_extracted_error with
    | some e => simp
    | none =>
      cases hps : (parseFilePhase content).2 with
      | ok ps =>
        simp only [hps]
        intro e hmem
        rcases List.mem_cons.mp hmem with hm | hm
        · exact Or.inl hm
        rcases List.mem_append.mp hm with hm2 | hm2
        · have hm3 : e ∈ (parseFilePhase content).1 := by simpa using hm2
          exact Or.inr (Or.inl
            (parseFileLoop_events (content.drop 1) [] [] (by simp) e hm3))
        · exact Or.inr (Or.inr (List.mem_singleton.mp hm2))
      | error e2 =>
        simp only [hps]
        intro e hmem
        rcases List.mem_cons.mp hmem with hm | hm
        · exact Or.inl hm
        · have hm2 : e ∈ (parseFilePhase content).1 := by simpa using hm
          exact Or.inr (Or.inl
            (parseFileLoop_events (content.drop 1) [] [] (by simp) e hm2))

/-- C8 (confirmed): whenever the extracted plaintext cache exists, the
pipeline leaves the world untouched and emits no `Downloading` and no
`Extracting` event — no network access, no decompression, whatever the
filesystem does — so a second invocation on the resulting world returns
the identical result; the parsing phase emits only `Parsing` events, and
on a fully readable cache with a healthy filesystem the run is exactly
`CheckingCache`, the `Parsing` events of the pure parse and `Complete`,
returning that parse's record list. -/
theorem C8_cache_idempotence :
    ∀ (w : IngestWorld) (content : List LineRead), w.txtFile = some content →
      (ingest w).2.2 = w ∧
        (∀ n t, DatasetProgress.downloading n t ∉ (ingest w).1) ∧
        DatasetProgress.extracting ∉ (ingest w).1 ∧
        (ingest ((ingest w).2.2)).2.1 = (ingest w).2.1 ∧
        (∀ e ∈ (parseFilePhase content).1, ∃ n, e = DatasetProgress.parsing n) ∧
        (∀ lines : List Str, content = lines.map Except.ok → w.fs = fsOk →
          (ingest w).1 = DatasetProgress.checkingCache ::
              ((parsePhase lines).1 ++ [DatasetProgress.complete]) ∧
            (ingest w).2.1 = Except.ok (parsePhase lines).2) := by
  intro w content h
  refine ⟨ingest_cached_world w content h, ?_, ?_, ?_, ?_, ?_⟩
  · intro n t hmem
    rcases ingest_cached_events w content h _ hmem with hm | ⟨m, hm⟩ | hm <;>
      exact DatasetProgress.noConfusion hm
  · intro hmem
    rcases ingest_cached_events w content h _ hmem with hm | ⟨m, hm⟩ | hm <;>
      exact DatasetProgress.noConfusion hm
  · rw [ingest_cached_world w content h]
  · exact parseFileLoop_events (content.drop 1) [] [] (by simp)
  · intro lines hc hfs
    subst hc
    have hr := parseFilePhase_map_ok lines
    unfold ingest
    rw [hfs, h]
    unfold parseFromFile
    rw [hfs]
    simp only [fsOk, hr]
    constructor <;> simp

/-- Witness for C8: the idempotence, no-download and exact-shape clauses
at the concrete cached world `c8World`. -/
theorem C8_cache_idempotence_witness :
    (ingest c8World).2.2 = c8World ∧
      (ingest ((ingest c8World).2.2)).2.1 = (ingest c8World).2.1 ∧
      (ingest c8World).2.1 =
        Except.ok (parsePhase [c7Header, c7GoodLine, c7BadLine]).2 :=
  ⟨(C8_cache_idempotence c8World _ rfl).1,
    (C8_cache_idempotence c8World _ rfl).2.2.2.1,
    ((C8_cache_idempotence c8World _ rfl).2.2.2.2.2
      [c7Header, c7GoodLine, c7BadLine] rfl rfl).2⟩

/-- C10 (confirmed): `start_threaded_loading` is a no-op — identical
state, so no new channels and no spawned worker — while either receiver
from a previous ingestion is still held; and once
`check_loading_progress` consumes the terminal result message it sets both
receiver fields to `None`, after which `start_threaded_loading` does spawn
a new ingestion (installing the new worker's channels). -/
theorem C10_single_flight :
    (∀ (app : App) (w : IngestWorld),
      app.progress_receiver.isSome ∨ app.protein_receiver.isSome →
        app.start_threaded_loading w = app) ∧
      (∀ (app : App) (r : Except Str (List SmallProtein)),
        app.protein_receiver = some (some r) →
          app.check_loading_progress.progress_receiver = none ∧
            app.check_loading_progress.protein_receiver = none) ∧
      (∀ (app : App) (r : Except Str (List SmallProtein)) (w : IngestWorld),
        app.protein_receiver = some (some r) →
          (app.check_loading_progress.start_threaded_loading w).progress_receiver =
              some (ingest w).1 ∧
            (app.check_loading_progress.start_threaded_loading w).protein_receiver =
              some (some (ingest w).2.1)) := by
  have hconsume : ∀ (app : App) (r : Except Str (List SmallProtein)),
      app.protein_receiver = some (some r) →
        app.check_loading_progress.progress_receiver = none ∧
          app.check_loading_progress.protein_receiver = none := by
    intro app r h
    obtain ⟨hsp, hpr, hle, hil, hlc⟩ :=
      drain_preserves (app.progress_receiver.getD []) app
    cases hprog : app.progress_receiver with
    | none =>
      cases r with
      | ok proteins => simp [App.check_loading_progress, hprog, h]
      | error e => simp [App.check_loading_progress, hprog, h]
    | some events =>
      rw [hprog] at hpr
      simp only [Option.getD_some] at hpr
      cases r with
      | ok proteins => simp [App.check_loading_progress, hprog, hpr, h]
      | error e => simp [App.check_loading_progress, hprog, hpr, h]
  refine ⟨?_, hconsume, ?_⟩
  · intro app w h
    have hcond : (app.progress_receiver.isSome || app.protein_receiver.isSome)
        = true := by
      rcases h with h | h <;> simp [h]
    unfold App.start_threaded_loading
    rw [if_pos hcond]
  · intro app r w h
    obtain ⟨h1, h2⟩ := hconsume app r h
    have hcond : (app.check_loading_progress.progress_receiver.isSome ||
        app.check_loading_progress.protein_receiver.isSome) = false := by
      simp [h1, h2]
    unfold App.start_threaded_loading
    rw [hcond]
    simp

/-- Witness for C10: the no-op clause at the busy state `c10BusyApp`, and
the consumption and respawn clauses at the terminal state `c10DoneApp`. -/
theorem C10_single_flight_witness :
    c10BusyApp.start_threaded_loading c9World = c10BusyApp ∧
      c10DoneApp.check_loading_progress.progress_receiver = none ∧
      c10DoneApp.check_loading_progress.protein_receiver = none ∧
      (c10DoneApp.check_loading_progress.start_threaded_loading c8World).protein_receiver =
        some (some (ingest c8World).2.1) :=
  ⟨C10_single_flight.1 c10BusyApp c9World (Or.inl (by decide)),
    (C10_single_flight.2.1 c10DoneApp (Except.ok [blankProtein]) rfl).1,
    (C10_single_flight.2.1 c10DoneApp (Except.ok [blankProtein]) rfl).2,
    (C10_single_flight.2.2 c10DoneApp (Except.ok [blankProtein]) c8World rfl).2⟩
